import Mathlib

/-! Verification development for the MadAboutMining GUI (miner_gui.py):
a shallow embedding of its process-lifecycle and output-streaming core —
string utilities, the output pipeline (decoding, ANSI handling, keyword
classification, hashrate capture), the argument/path resolver, the
generated-config writer, the kill helpers and the supervisor operations —
together with theorems checking the specification's claims against it.

Python strings are modelled as Lean `String`s (operating on `.data`);
character-class predicates use the ASCII fragment of the corresponding
Python classes, which covers every string the program manipulates here.
OS interaction (process handles, timers, message boxes, the filesystem)
is modelled as an explicit effect trace plus an environment of oracles. -/

namespace MinerGui

/-- ASCII fragment of the whitespace set used by Python `str.strip()`
and by the regex class `\s`. -/
def pySpace (c : Char) : Bool :=
  c = ' ' || c = '\t' || c = '\n' || c = '\r' || c = '\x0b' || c = '\x0c'

/-- Python `str.strip()` with no argument: drop leading and trailing
whitespace. -/
def pyStrip (s : String) : String :=
  String.mk (((s.data.dropWhile pySpace).reverse.dropWhile pySpace).reverse)

/-- Lower-case one character (ASCII fragment of Python `str.lower`). -/
def pyLowerChar (c : Char) : Char :=
  if 65 ≤ c.toNat && c.toNat ≤ 90 then Char.ofNat (c.toNat + 32) else c

/-- Python `str.lower()` (ASCII fragment). -/
def pyLower (s : String) : String := String.mk (s.data.map pyLowerChar)

/-- Upper-case one character (ASCII fragment of Python `str.upper`). -/
def pyUpperChar (c : Char) : Char :=
  if 97 ≤ c.toNat && c.toNat ≤ 122 then Char.ofNat (c.toNat - 32) else c

/-- Python `str.upper()` (ASCII fragment). -/
def pyUpper (s : String) : String := String.mk (s.data.map pyUpperChar)

/-- Substring containment, as in Python `pat in s` (for non-empty `pat`
it checks whether `pat` occurs contiguously in `s`). -/
def hasSub (pat : List Char) : List Char → Bool
  | [] => pat.isEmpty
  | c :: rest => pat.isPrefixOf (c :: rest) || hasSub pat rest

/-- `pat in s` on strings. -/
def strHasSub (s pat : String) : Bool := hasSub pat.data s.data

/-- One pass of Python `str.replace(old, new)`: replace non-overlapping
occurrences left to right.  The fuel argument (instantiated with the
length of the text) makes the recursion structural; each step consumes at
least one character of the text. -/
def replaceFuel (pat rep : List Char) : Nat → List Char → List Char
  | 0, s => s
  | _ + 1, [] => []
  | fuel + 1, c :: rest =>
    if !pat.isEmpty && pat.isPrefixOf (c :: rest) then
      rep ++ replaceFuel pat rep fuel ((c :: rest).drop pat.length)
    else
      c :: replaceFuel pat rep fuel rest

/-- Python `s.replace(pat, rep)` for a non-empty pattern (all the
program's patterns are non-empty literals). -/
def pyReplace (s pat rep : String) : String :=
  String.mk (replaceFuel pat.data rep.data s.data.length s.data)

/-- Escape one character as Python `html.escape` (quote=True) does. -/
def htmlEscapeChar (c : Char) : List Char :=
  if c = '&' then "&amp;".data
  else if c = '<' then "&lt;".data
  else if c = '>' then "&gt;".data
  else if c = '"' then "&quot;".data
  else if c = '\'' then "&#x27;".data
  else [c]

/-- Python `html.escape(s)` (its sequential replacements of
`& < > " '` coincide with this character-wise map). -/
def pyHtmlEscape (s : String) : String :=
  String.mk (s.data.flatMap htmlEscapeChar)

/-- Maximal run of characters satisfying `p`, with the remainder. -/
def takeRun (p : Char → Bool) : List Char → List Char × List Char
  | [] => ([], [])
  | c :: rest =>
    if p c then
      let (a, b) := takeRun p rest
      (c :: a, b)
    else ([], c :: rest)

/-- Case-insensitively strip a literal prefix, returning the remainder
(the backtracking-free part of matching a literal under re.IGNORECASE). -/
def ciStrip : List Char → List Char → Option (List Char)
  | [], s => some s
  | _ :: _, [] => none
  | p :: ps, c :: cs =>
    if pyLowerChar p = pyLowerChar c then ciStrip ps cs else none

/-- Python truthiness of an optional integer (`if not pid:` is taken for
both a missing value and a zero value). -/
def pyTruthyNat : Option Nat → Bool
  | none => false
  | some n => n != 0

/-- `int(s)` on a plain digit string (the only shape fed to it here:
the pieces of an SGR parameter list after `;`-splitting). -/
def parseNatDigits (s : List Char) : Option Nat :=
  if s.isEmpty || s.any (fun c => !c.isDigit) then none
  else some (s.foldl (fun acc c => acc * 10 + (c.toNat - 48)) 0)

/-! ### Hashrate regexes

`_XMRIG_SPEED_RE = speed\s+(?:10s/60s/15m\s+)?([0-9.]+)\s*([kMGT]?H/s)`
`_XMRIG_HASHRATE_RE = hashrate\s*[:=]?\s*([0-9.]+)\s*([kMGT]?H/s)`
both compiled with `re.IGNORECASE` and applied with `.search`.

The character classes of adjacent quantified elements are pairwise
disjoint (`\s` vs `[0-9.]` vs `[kMGT]`/`H`), so every greedy `*`/`+`
below is forced to its maximal run: if the maximal run fails, every
shorter run leaves a character the next element cannot match.  The only
genuine backtracking points are the optional group `(?:10s/60s/15m\s+)?`
and `[kMGT]?`, which are tried greedily first. -/

/-- Characters of the class `[0-9.]`. -/
def isNumDot (c : Char) : Bool := c.isDigit || c = '.'

/-- One character of `[kMGT]` under IGNORECASE. -/
def unitStart (c : Char) : Bool :=
  let l := pyLowerChar c
  l = 'k' || l = 'm' || l = 'g' || l = 't'

/-- Match `([kMGT]?H/s)` at the head of `s`, returning the captured text
(original characters).  Greedy `?`: the magnitude letter is tried first,
then dropped. -/
def unitMatch (s : List Char) : Option (List Char) :=
  match s with
  | [] => none
  | c :: rest =>
    if unitStart c then
      match ciStrip "H/s".data rest with
      | some _ => some (c :: rest.take 3)
      | none =>
        match ciStrip "H/s".data s with
        | some _ => some (s.take 3)
        | none => none
    else
      match ciStrip "H/s".data s with
      | some _ => some (s.take 3)
      | none => none

/-- Match `([0-9.]+)\s*([kMGT]?H/s)` at the head of `s`, returning the
two captured groups. -/
def numUnit (s : List Char) : Option (List Char × List Char) :=
  let (num, s1) := takeRun isNumDot s
  if num.isEmpty then none
  else
    let (_, s2) := takeRun pySpace s1
    match unitMatch s2 with
    | some u => some (num, u)
    | none => none

/-- `_XMRIG_SPEED_RE` matched at the head of `s`. -/
def speedMatchAt (s : List Char) : Option (List Char × List Char) :=
  match ciStrip "speed".data s with
  | none => none
  | some s1 =>
    let (ws, s2) := takeRun pySpace s1
    if ws.isEmpty then none
    else
      let withPre : Option (List Char × List Char) :=
        match ciStrip "10s/60s/15m".data s2 with
        | none => none
        | some s3 =>
          let (w2, s4) := takeRun pySpace s3
          if w2.isEmpty then none else numUnit s4
      match withPre with
      | some r => some r
      | none => numUnit s2

/-- `_XMRIG_HASHRATE_RE` matched at the head of `s`. -/
def hashrateMatchAt (s : List Char) : Option (List Char × List Char) :=
  match ciStrip "hashrate".data s with
  | none => none
  | some s1 =>
    let (_, s2) := takeRun pySpace s1
    let s3 := match s2 with
      | c :: rest => if c = ':' || c = '=' then rest else s2
      | [] => s2
    let (_, s4) := takeRun pySpace s3
    numUnit s4

/-- `re.search`: try the matcher at each start position, leftmost first. -/
def searchSuffixes (m : List Char → Option α) : List Char → Option α
  | [] => m []
  | c :: rest =>
    match m (c :: rest) with
    | some r => some r
    | none => searchSuffixes m rest

/-- `_XMRIG_SPEED_RE.search(s)`, returning the two groups. -/
def xmrigSpeedSearch (s : String) : Option (String × String) :=
  (searchSuffixes speedMatchAt s.data).map
    (fun r => (String.mk r.1, String.mk r.2))

/-- `_XMRIG_HASHRATE_RE.search(s)`, returning the two groups. -/
def xmrigHashrateSearch (s : String) : Option (String × String) :=
  (searchSuffixes hashrateMatchAt s.data).map
    (fun r => (String.mk r.1, String.mk r.2))

/-! ### ANSI stripping and rendering -/

/-- The class `[0-?]` of `ANSI_ESCAPE_RE`. -/
def csiParamChar (c : Char) : Bool := 48 ≤ c.toNat && c.toNat ≤ 63

/-- The intermediate class of `ANSI_ESCAPE_RE` (space through slash,
0x20–0x2F). -/
def csiInterChar (c : Char) : Bool := 32 ≤ c.toNat && c.toNat ≤ 47

/-- The class `[@-~]` of `ANSI_ESCAPE_RE`. -/
def csiFinalChar (c : Char) : Bool := 64 ≤ c.toNat && c.toNat ≤ 126

/-- Match `ANSI_ESCAPE_RE` (ESC, `[`, a run of the parameter class, a
run of the intermediate class, one final-class character) at the head,
returning the remainder after the matched sequence.  The three classes
are pairwise disjoint, so both greedy stars are forced maximal. -/
def ansiMatchAt : List Char → Option (List Char)
  | '\x1b' :: '[' :: rest =>
    let (_, r1) := takeRun csiParamChar rest
    let (_, r2) := takeRun csiInterChar r1
    (match r2 with
     | c :: r3 => if csiFinalChar c then some r3 else none
     | [] => none)
  | _ => none

/-- `ANSI_ESCAPE_RE.sub("", s)` followed by `.replace("\x1b", "")`,
fused into one scan: drop every escape sequence, and drop any leftover
bare ESC character. -/
def stripAnsiAux : Nat → List Char → List Char
  | 0, s => s
  | _ + 1, [] => []
  | fuel + 1, c :: rest =>
    match ansiMatchAt (c :: rest) with
    | some r => stripAnsiAux fuel r
    | none =>
      if c = '\x1b' then stripAnsiAux fuel rest
      else c :: stripAnsiAux fuel rest

/-- `strip_ansi` from the source. -/
def strip_ansi (s : String) : String :=
  String.mk (stripAnsiAux s.data.length s.data)

/-- Match `ANSI_SGR_RE = \x1b\[([0-9;]*)m` at the head, returning the
captured parameter text and the remainder. -/
def sgrMatchAt : List Char → Option (List Char × List Char)
  | '\x1b' :: '[' :: rest =>
    let (codes, r1) := takeRun (fun c => c.isDigit || c = ';') rest
    (match r1 with
     | 'm' :: r2 => some (codes, r2)
     | _ => none)
  | _ => none

/-- `ANSI_SGR_RE.split(s)` with its one capturing group: the alternating
list text, codes, text, codes, …, text. -/
def sgrSplitAux : Nat → List Char → List Char → List (List Char)
  | 0, acc, s => [acc.reverse ++ s]
  | _ + 1, acc, [] => [acc.reverse]
  | fuel + 1, acc, c :: rest =>
    match sgrMatchAt (c :: rest) with
    | some (codes, r) => acc.reverse :: codes :: sgrSplitAux fuel [] r
    | none => sgrSplitAux fuel (c :: acc) rest

def sgrSplit (s : List Char) : List (List Char) := sgrSplitAux s.length [] s

/-- The `ANSI_30_37` color table. -/
def ansiColor30 (c : Nat) : Option String :=
  match c with
  | 30 => some "#000000" | 31 => some "#cc0000" | 32 => some "#00aa00"
  | 33 => some "#aa8800" | 34 => some "#0000cc" | 35 => some "#aa00aa"
  | 36 => some "#00aaaa" | 37 => some "#cccccc" | _ => none

/-- The `ANSI_90_97` color table. -/
def ansiColor90 (c : Nat) : Option String :=
  match c with
  | 90 => some "#666666" | 91 => some "#ff4444" | 92 => some "#44ff44"
  | 93 => some "#ffff44" | 94 => some "#4444ff" | 95 => some "#ff44ff"
  | 96 => some "#44ffff" | 97 => some "#ffffff" | _ => none

def hexDigitChar (n : Nat) : Char :=
  if n < 10 then Char.ofNat (48 + n) else Char.ofNat (87 + n)

/-- Python `f"{n:02x}"` for byte values. -/
def hexByte (n : Nat) : String :=
  String.mk [hexDigitChar (n / 16 % 16), hexDigitChar (n % 16)]

/-- `color_256` from `ansi_to_html_line`: system palette, RGB cube and
grayscale ramp. -/
def color_256 (n : Nat) : String :=
  if n ≤ 15 then
    match n with
    | 0 => "#000000" | 1 => "#800000" | 2 => "#008000" | 3 => "#808000"
    | 4 => "#000080" | 5 => "#800080" | 6 => "#008080" | 7 => "#c0c0c0"
    | 8 => "#808080" | 9 => "#ff0000" | 10 => "#00ff00" | 11 => "#ffff00"
    | 12 => "#0000ff" | 13 => "#ff00ff" | 14 => "#00ffff" | _ => "#ffffff"
  else if n ≤ 231 then
    let m := n - 16
    let r := m / 36 % 6
    let g := m / 6 % 6
    let b := m % 6
    let v := fun x => if 0 < x then 55 + x * 40 else 0
    "#" ++ hexByte (v r) ++ hexByte (v g) ++ hexByte (v b)
  else if n ≤ 255 then
    let gray := 8 + (n - 232) * 10
    "#" ++ hexByte gray ++ hexByte gray ++ hexByte gray
  else "#cccccc"

/-- Split an SGR parameter text on `;`, drop empty pieces, default to
`["0"]` — `[c for c in code_str.split(";") if c != ""] or ["0"]`
(the parameter text is already stripped of whitespace: it only ever
contains digits and semicolons). -/
def parseCodes (codeStr : List Char) : List (List Char) :=
  let pieces := (codeStr.splitOn ';').filter (fun p => !p.isEmpty)
  if pieces.isEmpty then ["0".data] else pieces

/-- The SGR interpretation loop of `ansi_to_html_line`: walk the code
list updating the foreground color.  `38;5;N` consumes two extra
parameters only when the next parameter is literally `5` and a parameter
after it exists; unknown codes are skipped. -/
def sgrLoop : Option String → List (List Char) → Option String
  | fg, [] => fg
  | fg, c :: rest =>
    match parseNatDigits c with
    | none => sgrLoop fg rest
    | some n =>
      if n = 0 then sgrLoop none rest
      else
        match ansiColor30 n with
        | some col => sgrLoop (some col) rest
        | none =>
          match ansiColor90 n with
          | some col => sgrLoop (some col) rest
          | none =>
            if n = 39 then sgrLoop none rest
            else if n = 38 then
              match rest with
              | p1 :: p2 :: r2 =>
                if p1 = "5".data then
                  let fg' := match parseNatDigits p2 with
                    | some m => some (color_256 m)
                    | none => fg
                  sgrLoop fg' r2
                else sgrLoop fg (p1 :: p2 :: r2)
              | [p1] => sgrLoop fg [p1]
              | [] => sgrLoop fg []
            else sgrLoop fg rest
termination_by _ l => l.length
decreasing_by all_goals simp <;> omega

/-- The fixed monospace span opening used by both renderers. -/
def monoSpanOpen : String :=
  "<span style=\"font-family:Consolas, monospace; white-space: pre;\">"

/-- Render one text part under the current foreground color. -/
def renderText (fg : Option String) (t : List Char) : String :=
  let escaped := pyHtmlEscape (String.mk t)
  match fg with
  | some col => "<span style=\"color:" ++ col ++ "\">" ++ escaped ++ "</span>"
  | none => escaped

/-- The part-processing loop of `ansi_to_html_line` over the alternating
text/codes list. -/
def ansiPartsLoop : Option String → List (List Char) → List String
  | _, [] => []
  | fg, [t] => if t.isEmpty then [] else [renderText fg t]
  | fg, t :: codes :: rest =>
    let chunk := if t.isEmpty then [] else [renderText fg t]
    chunk ++ ansiPartsLoop (sgrLoop fg (parseCodes codes)) rest

/-- `ansi_to_html_line` from the source. -/
def ansi_to_html_line (s : String) : String :=
  monoSpanOpen ++ String.join (ansiPartsLoop none (sgrSplit s.data)) ++ "</span>"

/-! ### Keyword classification (`XMRIG_RULES`) -/

/-- ASCII fragment of the regex `\w` class. -/
def wordChar (c : Char) : Bool := c.isAlphanum || c = '_'

def boundaryBefore : Option Char → Bool
  | none => true
  | some c => !wordChar c

def boundaryAfterOk : List Char → Bool
  | [] => true
  | c :: _ => !wordChar c

/-- `re.search` of `\bw\b` under IGNORECASE for a non-empty literal `w`
whose first and last characters are word characters: `w` occurs at a
position not preceded and not followed by a word character. -/
def wbSearchAux (w : List Char) : Option Char → List Char → Bool
  | _, [] => false
  | prev, c :: rest =>
    (boundaryBefore prev &&
      (match ciStrip w (c :: rest) with
       | some r => boundaryAfterOk r
       | none => false)) ||
    wbSearchAux w (some c) rest

def wbSearch (w s : String) : Bool := wbSearchAux w.data none s.data

/-- `XMRIG_RULES`: the ordered rule list.  Each pattern is an alternation
of word-boundary-delimited literals compiled with `re.IGNORECASE`. -/
def XMRIG_RULES : List (List String × String) :=
  [ (["accepted"], "#44ff44"),
    (["new job"], "#ff44ff"),
    (["rejected"], "#ff4444"),
    (["error", "failed", "exception"], "#ff4444"),
    (["difficulty", "hashrate", "share"], "#ffff44") ]

/-- `rx.search(line)` for one rule pattern. -/
def ruleSearch (pat : List String) (line : String) : Bool :=
  pat.any (fun w => wbSearch w line)

def defaultSpan (clean : String) : String :=
  monoSpanOpen ++ clean ++ "</span>"

def coloredSpan (color clean : String) : String :=
  "<span style=\"font-family:Consolas, monospace; white-space: pre; color:"
    ++ color ++ "\">" ++ clean ++ "</span>"

/-- `line_to_html_with_rules` from the source. -/
def line_to_html_with_rules (line miner_id : String) : String :=
  if strHasSub line "\x1b[" then ansi_to_html_line line
  else
    let clean := pyHtmlEscape line
    if pyLower miner_id = "xmrig" then
      match XMRIG_RULES.find? (fun r => ruleSearch r.1 line) with
      | some r => coloredSpan r.2 clean
      | none => defaultSpan clean
    else defaultSpan clean

/-- `MinerGUI._maybe_capture_hashrate`, acting on the `last_hashrate`
map (the only state it touches). -/
def maybe_capture_hashrate (lastHashrate : String → Option String)
    (miner_id line : String) : String → Option String :=
  if pyLower miner_id != "xmrig" then lastHashrate
  else
    let s := strip_ansi line
    match (xmrigSpeedSearch s).orElse (fun _ => xmrigHashrateSearch s) with
    | none => lastHashrate
    | some r =>
      fun k =>
        if k = "xmrig" then some (pyStrip r.1 ++ " " ++ pyStrip r.2)
        else lastHashrate k

/-! ### Kill-by-name -/

/-- One character of the class `[A-Za-z0-9_.-]`. -/
def safeExeChar (c : Char) : Bool :=
  c.isAlphanum || c = '_' || c = '.' || c = '-'

/-- Whole-string match of `[A-Za-z0-9_.-]+\.exe` under IGNORECASE.
Because `.`, `e`, `x` lie inside the character class, this holds exactly
when the string has length ≥ 5, all its characters are in the class, and
it ends with `.exe` case-insensitively. -/
def safeExeCore (l : List Char) : Bool :=
  decide (5 ≤ l.length) && l.all safeExeChar &&
    pyLower (String.mk (l.drop (l.length - 4))) = ".exe"

/-- `SAFE_EXE_NAME_RE.match(s)`: anchored at both ends; `$` also matches
just before a final newline. -/
def safeExeMatch (s : String) : Bool :=
  safeExeCore s.data ||
    (match s.data.getLast? with
     | some c => c = '\n' && safeExeCore s.data.dropLast
     | none => false)

/-- One entry of the `psutil.process_iter(["name"])` snapshot: the
reported executable name (`None` possible) and whether `p.kill()`
succeeds (`false` models a raised `psutil.Error`, which the loop
swallows without counting the process). -/
structure OsProc where
  name : Option String
  killOk : Bool
deriving DecidableEq

/-- The iteration of `kill_by_name`, indexed from `i`: returns the count
of processes terminated and the indices at which a kill was attempted. -/
def killByNameLoop (exeL : String) : Nat → List OsProc → Nat × List Nat
  | _, [] => (0, [])
  | i, p :: rest =>
    let (k, a) := killByNameLoop exeL (i + 1) rest
    if pyLower (p.name.getD "") = exeL then
      (if p.killOk then k + 1 else k, i :: a)
    else (k, a)

/-- `kill_by_name` over a snapshot of the system process table. -/
def kill_by_name (procs : List OsProc) (exe_name : String) : Nat × List Nat :=
  let exe := pyStrip exe_name
  if !safeExeMatch exe then (0, [])
  else killByNameLoop (pyLower exe) 0 procs

/-! ### Output-stream decoding (`decode_process_bytes`) -/

/-- UTF-8 continuation byte. -/
def utf8Cont (n : Nat) : Bool := 128 ≤ n && n ≤ 191

/-- Decode one UTF-8 scalar from the head of the byte list (strict:
rejects overlong forms, surrogates and values above U+10FFFF, as
Python's `bytes.decode("utf-8")` does). -/
def utf8Step : List UInt8 → Option (Char × List UInt8)
  | [] => none
  | b :: rest =>
    let n := b.toNat
    if n ≤ 127 then some (Char.ofNat n, rest)
    else if 194 ≤ n && n ≤ 223 then
      match rest with
      | b2 :: r2 =>
        if utf8Cont b2.toNat then
          some (Char.ofNat ((n - 192) * 64 + (b2.toNat - 128)), r2)
        else none
      | [] => none
    else if 224 ≤ n && n ≤ 239 then
      match rest with
      | b2 :: b3 :: r3 =>
        let m2 := b2.toNat
        let okSecond :=
          if n = 224 then 160 ≤ m2 && m2 ≤ 191
          else if n = 237 then 128 ≤ m2 && m2 ≤ 159
          else utf8Cont m2
        if okSecond && utf8Cont b3.toNat then
          some (Char.ofNat ((n - 224) * 4096 + (m2 - 128) * 64 + (b3.toNat - 128)), r3)
        else none
      | _ => none
    else if 240 ≤ n && n ≤ 244 then
      match rest with
      | b2 :: b3 :: b4 :: r4 =>
        let m2 := b2.toNat
        let okSecond :=
          if n = 240 then 144 ≤ m2 && m2 ≤ 191
          else if n = 244 then 128 ≤ m2 && m2 ≤ 143
          else utf8Cont m2
        if okSecond && utf8Cont b3.toNat && utf8Cont b4.toNat then
          some (Char.ofNat ((n - 240) * 262144 + (m2 - 128) * 4096 +
            (b3.toNat - 128) * 64 + (b4.toNat - 128)), r4)
        else none
      | _ => none
    else none

/-- Is `b2` an acceptable second byte after lead byte `lead`? -/
def utf8ValidSecond (lead b2 : Nat) : Bool :=
  if 194 ≤ lead && lead ≤ 223 then utf8Cont b2
  else if lead = 224 then 160 ≤ b2 && b2 ≤ 191
  else if lead = 237 then 128 ≤ b2 && b2 ≤ 159
  else if 224 ≤ lead && lead ≤ 239 then utf8Cont b2
  else if lead = 240 then 144 ≤ b2 && b2 ≤ 191
  else if lead = 244 then 128 ≤ b2 && b2 ≤ 143
  else if 240 ≤ lead && lead ≤ 244 then utf8Cont b2
  else false

/-- On a decoding failure, the number of bytes the `errors="replace"`
handler consumes for one replacement character: the maximal subpart of
an ill-formed sequence (Python follows the Unicode recommendation). -/
def utf8FailSkip : List UInt8 → Nat
  | [] => 1
  | [_] => 1
  | b :: b2 :: r2 =>
    let lead := b.toNat
    if utf8ValidSecond lead b2.toNat then
      if 240 ≤ lead then
        match r2 with
        | b3 :: _ => if utf8Cont b3.toNat then 3 else 2
        | [] => 2
      else 2
    else 1

/-- Decode a byte list; `strict = true` fails on the first ill-formed
sequence, otherwise each maximal ill-formed subpart becomes U+FFFD.  The
fuel (instantiated with the length) makes the recursion structural. -/
def utf8DecodeAux (strict : Bool) : Nat → List UInt8 → Option (List Char)
  | _, [] => some []
  | 0, _ :: _ => none
  | fuel + 1, b :: rest =>
    match utf8Step (b :: rest) with
    | some (c, r) => (utf8DecodeAux strict fuel r).map (fun l => c :: l)
    | none =>
      if strict then none
      else
        (utf8DecodeAux strict fuel ((b :: rest).drop (utf8FailSkip (b :: rest)))).map
          (fun l => Char.ofNat 0xFFFD :: l)

/-- `b.decode("utf-8")` (strict). -/
def utf8Decode (b : List UInt8) : Option String :=
  (utf8DecodeAux true b.length b).map String.mk

/-- `b.decode(errors="replace")` (lossy best-effort). -/
def utf8DecodeReplace (b : List UInt8) : String :=
  match utf8DecodeAux false b.length b with
  | some l => String.mk l
  | none => ""

/-- `decode_process_bytes` from the source.  The Windows legacy code
page (`b.decode("mbcs", errors="replace")`) is platform data, modelled
as an oracle; `none` models the defensive `except Exception` branch
around it. -/
def decode_process_bytes (win32 : Bool) (mbcs : List UInt8 → Option String)
    (b : List UInt8) : String :=
  if b.isEmpty then ""
  else
    match utf8Decode b with
    | some s => s
    | none =>
      if win32 then
        match mbcs b with
        | some t => t
        | none => utf8DecodeReplace b
      else utf8DecodeReplace b

/-! ### Environment-variable expansion

The program runs `os.path.expandvars` on Windows, i.e. `ntpath`'s
version: `$var`, `${var}` and `%var%` forms, unknown variables left
unchanged, no expansion within single quotes.  The process environment
is a lookup oracle (`none` models a `KeyError`). -/

/-- The `varchars` set of `ntpath.expandvars`
(ASCII letters, digits, `_` and `-`). -/
def ntVarChar (c : Char) : Bool := c.isAlphanum || c = '_' || c = '-'

/-- Split at the first occurrence of `q`, excluding it: returns the part
before and the part after. -/
def splitAtChar (q : Char) : List Char → Option (List Char × List Char)
  | [] => none
  | c :: rest =>
    if c = q then some ([], rest)
    else (splitAtChar q rest).map (fun r => (c :: r.1, r.2))

theorem splitAtChar_length (q : Char) (l pre post : List Char)
    (h : splitAtChar q l = some (pre, post)) :
    pre.length + post.length + 1 = l.length := by
  induction l generalizing pre post with
  | nil => simp [splitAtChar] at h
  | cons c rest ih =>
    rw [splitAtChar] at h
    by_cases hc : c = q
    · simp only [if_pos hc, Option.some.injEq, Prod.mk.injEq] at h
      obtain ⟨h1, h2⟩ := h
      subst h1; subst h2; simp
    · simp only [if_neg hc, Option.map_eq_some'] at h
      obtain ⟨⟨r1, r2⟩, hr, hp⟩ := h
      simp only [Prod.mk.injEq] at hp
      obtain ⟨h1, h2⟩ := hp
      subst h1; subst h2
      have := ih r1 r2 hr
      simp; omega

theorem takeRun_snd_length (p : Char → Bool) (l : List Char) :
    (takeRun p l).2.length ≤ l.length := by
  induction l with
  | nil => simp [takeRun]
  | cons c rest ih =>
    by_cases hc : p c = true
    · simp [takeRun, hc]
      omega
    · simp [takeRun, hc]

/-- The main loop of `ntpath.expandvars` (string branch). -/
def expandvarsLoop (env : String → Option String) : List Char → List Char
  | [] => []
  | '\'' :: rest =>
    (match h : splitAtChar '\'' rest with
     | some (pre, post) =>
       have := splitAtChar_length _ _ _ _ h
       '\'' :: pre ++ '\'' :: expandvarsLoop env post
     | none => '\'' :: rest)
  | '%' :: rest =>
    (match rest with
     | '%' :: r2 => '%' :: expandvarsLoop env r2
     | r1 =>
       match h : splitAtChar '%' r1 with
       | none => '%' :: r1
       | some (var, post) =>
         have := splitAtChar_length _ _ _ _ h
         let value := match env (String.mk var) with
           | some v => v.data
           | none => '%' :: var ++ ['%']
         value ++ expandvarsLoop env post)
  | '$' :: rest =>
    (match rest with
     | '$' :: r2 => '$' :: expandvarsLoop env r2
     | '{' :: r2 =>
       (match h : splitAtChar '}' r2 with
        | none => '$' :: '{' :: r2
        | some (var, post) =>
          have := splitAtChar_length _ _ _ _ h
          let value := match env (String.mk var) with
            | some v => v.data
            | none => '$' :: '{' :: var ++ ['}']
          value ++ expandvarsLoop env post)
     | r1 =>
       have := takeRun_snd_length ntVarChar r1
       let value := match env (String.mk (takeRun ntVarChar r1).1) with
         | some v => v.data
         | none => '$' :: (takeRun ntVarChar r1).1
       value ++ expandvarsLoop env (takeRun ntVarChar r1).2)
  | c :: rest => c :: expandvarsLoop env rest
termination_by l => l.length
decreasing_by all_goals (simp_wf; try simp only [List.length_cons]); all_goals omega

/-- `os.path.expandvars` (ntpath, string branch): the early return for
strings containing neither `$` nor `%`, then the expansion loop. -/
def expandvars (env : String → Option String) (path : String) : String :=
  if !path.data.contains '$' && !path.data.contains '%' then path
  else String.mk (expandvarsLoop env path.data)

/-! ### Argument tokenization

`split_args` calls `shlex.split(arg_str, posix=False)`: whitespace_split
on, comments off, punctuation_chars off, posix off.  Specialized to
those settings, `shlex.read_token` becomes the scanner below:
whitespace separates tokens; a quote character at the start of a token
opens a quoted section running to the matching quote, emitted (quotes
retained) as a complete token; a quote inside a word is an ordinary
character; an unterminated quoted section raises ValueError (`none`). -/

/-- `shlex.whitespace`. -/
def shlexWs (c : Char) : Bool := c = ' ' || c = '\t' || c = '\r' || c = '\n'

/-- `shlex.quotes`. -/
def shlexQuote (c : Char) : Bool := c = '\'' || c = '"'

/-- Scanner state: between tokens, inside a word, or inside a quoted
section opened by the given quote (accumulators reversed). -/
inductive ShlexState where
  | ws
  | word (acc : List Char)
  | quoted (q : Char) (acc : List Char)

/-- The `read_token` loop of non-posix whitespace-split shlex, iterated
to the end of input. -/
def shlexRun : ShlexState → List Char → Option (List String)
  | .ws, [] => some []
  | .ws, c :: rest =>
    if shlexWs c then shlexRun .ws rest
    else if shlexQuote c then shlexRun (.quoted c [c]) rest
    else shlexRun (.word [c]) rest
  | .word acc, [] => some [String.mk acc.reverse]
  | .word acc, c :: rest =>
    if shlexWs c then (shlexRun .ws rest).map (fun l => String.mk acc.reverse :: l)
    else shlexRun (.word (c :: acc)) rest
  | .quoted _ _, [] => none
  | .quoted q acc, c :: rest =>
    if c = q then (shlexRun .ws rest).map (fun l => String.mk (c :: acc).reverse :: l)
    else shlexRun (.quoted q (c :: acc)) rest

/-- `shlex.split(s, posix=False)`. -/
def pyShlexSplitNonPosix (s : String) : Option (List String) :=
  shlexRun .ws s.data

/-- `split_args` from the source (`none` models the ValueError an
unbalanced quote raises). -/
def split_args (arg_str : String) : Option (List String) :=
  let t := pyStrip arg_str
  if t = "" then some []
  else pyShlexSplitNonPosix t

/-! ### Path helpers (pathlib on the Windows target) -/

/-- `pathlib.Path(p).name`: the final path component (both separators),
modelled for the ordinary file paths the program builds. -/
def pathName (p : String) : String :=
  String.mk ((p.data.reverse.takeWhile (fun c => c ≠ '/' && c ≠ '\\')).reverse)

/-- `str(pathlib.Path(p).parent)` for ordinary file paths: everything
before the final separator (`.` when there is none). -/
def pathParent (p : String) : String :=
  match p.data.reverse.dropWhile (fun c => c ≠ '/' && c ≠ '\\') with
  | _ :: rest => String.mk rest.reverse
  | [] => "."

/-- `pathlib.Path(p).is_absolute()`, modelled for the common shapes
(drive letter + separator, UNC/rooted paths). -/
def pathIsAbsolute (p : String) : Bool :=
  match p.data with
  | c :: ':' :: s :: _ => c.isAlpha && (s = '\\' || s = '/')
  | c :: _ => c = '\\' || c = '/'
  | [] => false

/-! ### Placeholder expansion (`expand_placeholders`) -/

/-- Run-dependent placeholder values: the application base directory and
the `datetime.now()` renderings. -/
structure PlaceholderCtx where
  appDir : String
  date : String
  time : String
  datetime : String

/-- `expand_placeholders` from the source: the six placeholder
replacements in dictionary order, then `os.path.expandvars`. -/
def expand_placeholders (ctx : PlaceholderCtx) (env : String → Option String)
    (s : String) (xmrig_config_path : Option String) : String :=
  let repl : List (String × String) :=
    [ ("{APP_DIR}", ctx.appDir),
      ("{DATE}", ctx.date),
      ("{TIME}", ctx.time),
      ("{DATETIME}", ctx.datetime),
      ("{XMRIG_CONFIG}",
        match xmrig_config_path with | some p => p | none => ""),
      ("{XMRIG_CONFIG_NAME}",
        match xmrig_config_path with
        | some p => pathName p
        | none => "config.generated.json") ]
  let out := repl.foldl (fun acc kv => pyReplace acc kv.1 kv.2) s
  expandvars env out

/-! ### Generated-config writer -/

/-- One entry of the generated document's `pools` list (`passwd` is the
JSON `pass` field). -/
structure XmrigPool where
  url : String
  user : String
  passwd : String
  keepalive : Bool
  tls : Bool
deriving DecidableEq

/-- The generated configuration document. -/
structure XmrigConfig where
  autosave : Bool
  cpu : Bool
  opencl : Bool
  cuda : Bool
  pools : List XmrigPool
deriving DecidableEq

/-- `settings["xmrig"]` (`passwd` is the settings key `pass`; a missing
key is the empty string, matching the `or`-defaulting reads). -/
structure XmSettings where
  auto_config : Bool
  pool : String
  wallet : String
  worker : String
  passwd : String
  extra : String
deriving DecidableEq

/-- `MinerGUI._xmrig_generated_config_path`. -/
def xmrig_generated_config_path (xmrig_exe_path : String) : String :=
  pathParent xmrig_exe_path ++ "\\config.generated.json"

/-- Outcome of `MinerGUI._write_xmrig_config`: auto-config disabled
(returns None silently), missing pool/wallet (warning box, returns None,
nothing written), or the document written beside the executable. -/
inductive WriteConfigResult where
  | skipped
  | missingFields
  | written (path : String) (cfg : XmrigConfig)
deriving DecidableEq

/-- `password = (xm.get("pass") or "x").strip() or "x"` (the empty
string models a falsy/missing settings value). -/
def xmrigPasswordField (passwd : String) : String :=
  let p1 := pyStrip (if passwd = "" then "x" else passwd)
  if p1 = "" then "x" else p1

/-- `user = wallet if not worker else f"{wallet}.{worker}"`. -/
def xmrigUserField (wallet worker : String) : String :=
  if worker = "" then wallet else wallet ++ "." ++ worker

/-- `MinerGUI._write_xmrig_config`. -/
def write_xmrig_config (xm : XmSettings) (xmrig_exe_path : String) :
    WriteConfigResult :=
  if !xm.auto_config then .skipped
  else
    let pool := pyStrip xm.pool
    let wallet := pyStrip xm.wallet
    let worker := pyStrip xm.worker
    let password := xmrigPasswordField xm.passwd
    if pool = "" || wallet = "" then .missingFields
    else
      .written (xmrig_generated_config_path xmrig_exe_path)
        ⟨true, true, false, false,
         [⟨pool, xmrigUserField wallet worker, password, true, false⟩]⟩

/-! ### The supervisor state machine

Records (`self.procs`, `self.proc_pids`, `self.proc_paused`,
`self.proc_last_error`, `self.last_hashrate`) are total maps from miner
id, with `none`/`false` covering both a missing key and a stored
`None`/`False`, matching the `.get` reads throughout the source.  OS and
GUI interaction is an ordered effect trace; OS answers the supervisor
branches on (platform, resume success, `waitForStarted`, dialogs, the
filesystem, the process environment) are oracles in `Env`. -/

/-- `QProcess` process states. -/
inductive QProcState where
  | notRunning
  | starting
  | running
deriving DecidableEq

/-- A tracked `QProcess` handle, abstracted to the state the supervisor
queries. -/
structure QProc where
  state : QProcState
deriving DecidableEq

/-- One externally visible action of the supervisor, in program order. -/
inductive Effect where
  | logGlobal (msg : String)
  | appendTab (miner_id text : String)
  | msgInfo (title text : String)
  | msgWarning (title text : String)
  | msgCritical (title text : String)
  | osResume (pid : Nat)
  | terminate (miner_id : String)
  | armKillTimer (miner_id : String) (ms : Nat)
  | procKill (miner_id : String)
  | waitFinished (miner_id : String) (ms : Nat)
  | killTree (pid : Nat)
  | killByName (exe : String)
  | writeConfigFile (path : String) (cfg : XmrigConfig)
  | launch (exe : String) (args : List String) (workdir : String)
  | updateButtons
  | applyCoinSettings
  | collapseScriptsPanel
deriving DecidableEq

/-- The UI settings the supervisor reads. -/
structure UiSettings where
  single_active : Bool
  auto_collapse_scripts_panel : Bool
deriving DecidableEq

/-- One configured miner (`settings["miners"][i]`); `mtype` is the
settings key `type`. -/
structure MinerDef where
  id : String
  name : String
  mtype : String
  path : String
  args : String
  workdir : String
  kill_names : List String
  enabled : Bool
  scripts_dir : String
  active_scripts : List String
deriving DecidableEq

structure Settings where
  ui : UiSettings
  miners : List MinerDef
  xmrig : XmSettings
deriving DecidableEq

/-- The supervisor-owned state of `MinerGUI`. -/
structure GuiState where
  settings : Settings
  minerTabs : List String
  procs : String → Option QProc
  proc_pids : String → Option Nat
  proc_paused : String → Bool
  proc_last_error : String → Option String
  last_hashrate : String → Option String

/-- Pointwise update of a record map. -/
def updFun (f : String → α) (k : String) (v : α) : String → α :=
  fun x => if x = k then v else f x

/-- OS/GUI answers the supervisor branches on. -/
structure Env where
  win32 : Bool
  resumeOk : Nat → Bool
  killNameCount : String → Nat
  chooseBat : String → Option String
  pathExists : String → Bool
  comspec : Option String
  windir : Option String
  resolveDir : String → String
  ctx : PlaceholderCtx
  osEnv : String → Option String
  waitForStartedOk : String → Bool
  newPid : String → Option Nat
  errorString : String

/-- `MinerGUI._find_miner`. -/
def findMiner (st : GuiState) (mid : String) : Option MinerDef :=
  st.settings.miners.find? (fun m => pyStrip m.id = mid)

/-- `miner.get("name", miner_id)` after `_find_miner(...) or ` an empty
dict. -/
def minerName (st : GuiState) (mid : String) : String :=
  match findMiner st mid with
  | some m => m.name
  | none => mid

/-- `MinerGUI.is_running`. -/
def is_running (st : GuiState) (mid : String) : Bool :=
  match st.procs mid with
  | some p => p.state != .notRunning
  | none => false

/-- `MinerGUI.is_paused`. -/
def is_paused (st : GuiState) (mid : String) : Bool :=
  st.proc_paused mid

/-- `MinerGUI.resume_miner`. -/
def resume_miner (env : Env) (st : GuiState) (mid : String) (silent : Bool) :
    GuiState × List Effect :=
  if !env.win32 then
    (st, if silent then ([] : List Effect)
     else [Effect.msgInfo "Resume not supported" "Pause/Resume is only supported on Windows."])
  else if !is_running st mid then
    ({ st with proc_paused := updFun st.proc_paused mid false }, [Effect.updateButtons])
  else if !is_paused st mid then (st, [])
  else
    match st.proc_pids mid with
    | none =>
      ({ st with proc_paused := updFun st.proc_paused mid false }, [Effect.updateButtons])
    | some 0 =>
      ({ st with proc_paused := updFun st.proc_paused mid false }, [Effect.updateButtons])
    | some (p + 1) =>
      if env.resumeOk (p + 1) then
        ({ st with proc_paused := updFun st.proc_paused mid false },
         [Effect.osResume (p + 1)]
           ++ (if silent then [] else [Effect.logGlobal (minerName st mid ++ ": Resumed.")])
           ++ [Effect.updateButtons, Effect.applyCoinSettings])
      else
        (st,
         [Effect.osResume (p + 1)]
           ++ (if silent then []
               else [Effect.msgCritical "Resume failed"
                 ("Failed to resume " ++ minerName st mid ++ ".")])
           ++ [Effect.updateButtons, Effect.applyCoinSettings])

/-- `MinerGUI.stop_miner`. -/
def stop_miner (env : Env) (st : GuiState) (mid : String) :
    GuiState × List Effect :=
  let name := minerName st mid
  let notRunning : Bool := match st.procs mid with
    | none => true
    | some p => p.state == QProcState.notRunning
  if notRunning then
    (st, [Effect.logGlobal (name ++ ": Stop requested but not running.")])
  else
    let r := if is_paused st mid then resume_miner env st mid true else (st, [])
    (r.1, r.2 ++
      [Effect.logGlobal (name ++ ": Stop requested (graceful terminate)."),
       Effect.terminate mid, Effect.armKillTimer mid 5000, Effect.updateButtons])

/-- `MinerGUI.kill_miner`. -/
def kill_miner (env : Env) (st : GuiState) (mid : String) :
    GuiState × List Effect :=
  let name := minerName st mid
  let r := if is_paused st mid then resume_miner env st mid true else (st, [])
  let st1 := r.1
  let e2 : List Effect := match st1.procs mid with
    | some p =>
      if p.state != .notRunning then
        [Effect.logGlobal (name ++ ": Force kill requested."),
         Effect.procKill mid, Effect.waitFinished mid 2000]
      else []
    | none => []
  let e3 : List Effect := match st1.proc_pids mid with
    | some (p + 1) => [Effect.killTree (p + 1)]
    | _ => []
  let kills := match findMiner st mid with
    | some m => m.kill_names
    | none => []
  let e4 := kills.map (fun k => Effect.killByName (pyStrip k))
  let killed_total := (kills.map (fun k => env.killNameCount (pyStrip k))).sum
  let e5 :=
    if killed_total != 0 then
      [Effect.logGlobal (name ++ ": kill-by-name fallback killed "
        ++ toString killed_total ++ " process(es).")]
    else []
  let st2 := { st1 with
    procs := updFun st1.procs mid none,
    proc_pids := updFun st1.proc_pids mid none,
    proc_paused := updFun st1.proc_paused mid false }
  (st2, r.2 ++ e2 ++ e3 ++ e4 ++ e5 ++ [Effect.updateButtons])

/-- `MinerGUI._escalate_kill_if_running` — the escalation-timer
callback. -/
def escalate_kill_if_running (env : Env) (st : GuiState) (mid : String) :
    GuiState × List Effect :=
  if is_running st mid then
    let name := minerName st mid
    let r := kill_miner env st mid
    (r.1, Effect.logGlobal (name ++ ": Did not stop gracefully; escalating to kill.") :: r.2)
  else (st, [])

/-- Which return of `start_miner`/`_start_process` was taken (the Python
functions return `None`; the outcome is visible through the message
boxes and the launch effect). -/
inductive StartOutcome where
  | missingMiner
  | alreadyRunning
  | notConfigured
  | noScript
  | batNotFound
  | exeNotFound
  | splitError
  | noTab
  | launchFailed
  | started
deriving DecidableEq

/-- The single-active loop at the top of `start_miner`: every other
currently running tab id is sent Stop, threading state left to right. -/
def stopOthers (env : Env) (st : GuiState) (mid : String) :
    GuiState × List Effect :=
  st.minerTabs.foldl
    (fun acc t =>
      if t != mid && is_running acc.1 t then
        let r := stop_miner env acc.1 t
        (r.1, acc.2 ++ r.2)
      else acc)
    (st, [])

/-- The cmd.exe fallback in the BAT branch
(`os.path.join(os.environ.get("WINDIR", r"C:\Windows"), "System32",
"cmd.exe")`). -/
def ntCmdFallback (env : Env) : String :=
  (env.windir.getD "C:\\Windows") ++ "\\System32\\cmd.exe"

/-- `MinerGUI._start_process`. -/
def start_process (env : Env) (st : GuiState) (mid exe : String)
    (args : List String) (workdir : String) :
    GuiState × List Effect × StartOutcome :=
  if !st.minerTabs.contains mid then (st, [], .noTab)
  else
    let name := minerName st mid
    let wdir := if workdir = "" then env.resolveDir (pathParent exe) else workdir
    let argsText := if args.isEmpty then "(none)" else String.intercalate " " args
    let e1 : List Effect :=
      [Effect.logGlobal ("Starting " ++ name ++ ": " ++ exe),
       Effect.logGlobal (name ++ " args: " ++ argsText),
       Effect.logGlobal (name ++ " workdir: " ++ wdir),
       Effect.appendTab mid ("--- Starting " ++ name ++ " ---"),
       Effect.appendTab mid ("Exe: " ++ exe),
       Effect.appendTab mid ("Args: " ++ argsText),
       Effect.appendTab mid ("Workdir: " ++ wdir)]
    let st1 := { st with proc_last_error := updFun st.proc_last_error mid none }
    let e2 := e1 ++ [Effect.launch exe args wdir]
    if !env.waitForStartedOk mid then
      (st1, e2 ++
        [Effect.logGlobal (name ++ ": Failed to start. QProcess error: " ++ env.errorString),
         Effect.appendTab mid ("Failed to start. QProcess error: " ++ env.errorString),
         Effect.msgCritical "Start failed" (name ++ " did not start.")],
       .launchFailed)
    else
      let st2 := { st1 with
        procs := updFun st1.procs mid (some ⟨.running⟩),
        proc_pids := updFun st1.proc_pids mid (env.newPid mid),
        proc_paused := updFun st1.proc_paused mid false }
      (st2,
       e2 ++ [Effect.updateButtons] ++
         (if st.settings.ui.auto_collapse_scripts_panel then
            [Effect.collapseScriptsPanel]
          else []),
       .started)

/-- The body of `start_miner` after its configuration guards: the BAT
and EXE resolution-and-launch branches.  `pre` is the state/effects
after the single-active loop; the string arguments are the stripped
`type`/`path`/`args`/`workdir` fields. -/
def start_miner_resolved (env : Env) (pre : GuiState × List Effect)
    (mid : String) (miner : MinerDef) (mtype path args_str workdir : String) :
    GuiState × List Effect × StartOutcome :=
  let st1 := pre.1
  let e1 := pre.2
  if mtype = "BAT" then
        match env.chooseBat mid with
        | none =>
          (st1, e1 ++ [Effect.msgWarning "No script selected"
            ("Select a scripts folder and tick at least one .bat for " ++ miner.name
              ++ " using the Scripts panel.")], .noScript)
        | some bat =>
          if !env.pathExists bat then
            (st1, e1 ++ [Effect.msgCritical "BAT not found"
              ("BAT file not found: " ++ bat)], .batNotFound)
          else
            let exe := match env.comspec with
              | some cs => if env.pathExists cs then cs else ntCmdFallback env
              | none => ntCmdFallback env
            let args := ["/c", bat]
            let fw0 := if workdir = "" then env.resolveDir (pathParent bat) else workdir
            let fw := if fw0 != "" then expandvars env.osEnv fw0 else fw0
            let r := start_process env st1 mid exe args fw
            (r.1, e1 ++ r.2.1 ++ [Effect.applyCoinSettings], r.2.2)
      else
        let exe := if pathIsAbsolute path then path
          else env.resolveDir (env.ctx.appDir ++ "\\" ++ path)
        if !env.pathExists exe then
          (st1, e1 ++ [Effect.msgCritical "EXE not found"
            ("Executable not found: " ++ exe)], .exeNotFound)
        else
          let isXmrig := pyLower mid = "xmrig"
          let wres := if isXmrig then write_xmrig_config st1.settings.xmrig exe
            else .skipped
          let xmrigCfgPath : Option String := match wres with
            | .written p _ => some p
            | _ => none
          let eW : List Effect := match wres with
            | .written p cfg => [Effect.writeConfigFile p cfg]
            | .missingFields => [Effect.msgWarning "XMRig settings missing"
                ("XMRig auto-config is enabled. Please set Pool and Wallet/User in Settings"
                  ++ " or disable auto-config.")]
            | .skipped => []
          let args_str2 := if isXmrig then
              let extra := pyStrip st1.settings.xmrig.extra
              if extra != "" then pyStrip (args_str ++ " " ++ extra) else args_str
            else args_str
          let expanded := expand_placeholders env.ctx env.osEnv args_str2 xmrigCfgPath
          match split_args expanded with
          | none => (st1, e1 ++ eW, .splitError)
          | some args =>
            let fw0 := if workdir = "" then env.resolveDir (pathParent exe) else workdir
            let fw := if fw0 != "" then expandvars env.osEnv fw0 else fw0
            let r := start_process env st1 mid exe args fw
            (r.1, e1 ++ eW ++ r.2.1 ++ [Effect.applyCoinSettings], r.2.2)

/-- `MinerGUI.start_miner`.  `_choose_bat_script_path` (an interactive,
filesystem-driven selection that the claims do not touch) is the
`chooseBat` oracle; `Path.resolve` is the `resolveDir` oracle.  The
resolution/launch tail after the configuration guards is
`start_miner_resolved`. -/
def start_miner (env : Env) (st : GuiState) (mid : String) :
    GuiState × List Effect × StartOutcome :=
  match findMiner st mid with
  | none =>
    (st, [Effect.msgCritical "Missing miner" ("Miner not found: " ++ mid)], .missingMiner)
  | some miner =>
    if is_running st mid then
      (st, [Effect.msgWarning "Running" (miner.name ++ " is already running.")],
       .alreadyRunning)
    else
      let pre := if st.settings.ui.single_active then stopOthers env st mid else (st, [])
      let mtype := pyStrip (pyUpper (if miner.mtype = "" then "EXE" else miner.mtype))
      let path := pyStrip miner.path
      let args_str := pyStrip miner.args
      let workdir := pyStrip miner.workdir
      if path = "" then
        (pre.1, pre.2 ++ [Effect.msgWarning "Missing path"
          ("Set Path for " ++ miner.name ++ " in Settings.")], .notConfigured)
      else
        start_miner_resolved env pre mid miner mtype path args_str workdir

/-- Is an effect a process launch? -/
def isLaunch : Effect → Bool
  | .launch _ _ _ => true
  | _ => false

/-- A trace that launches no process. -/
def launchFree (es : List Effect) : Bool := es.all (fun e => !isLaunch e)

/-! ## Theorems -/

/-- C8: calling Stop on an identity whose process is not tracked as
running (no handle, or the handle is in the not-running state) does not
throw, performs only a log line, and leaves the whole state — in
particular that identity's handle, pid, pause flag and lastError —
unchanged. -/
theorem stop_idempotent_not_running (env : Env) (st : GuiState) (mid : String)
    (h : is_running st mid = false) :
    stop_miner env st mid =
      (st, [Effect.logGlobal (minerName st mid ++ ": Stop requested but not running.")]) ∧
    (stop_miner env st mid).1.procs mid = st.procs mid ∧
    (stop_miner env st mid).1.proc_pids mid = st.proc_pids mid ∧
    (stop_miner env st mid).1.proc_paused mid = st.proc_paused mid ∧
    (stop_miner env st mid).1.proc_last_error mid = st.proc_last_error mid := by
  have hb : (match st.procs mid with
      | none => true
      | some p => p.state == QProcState.notRunning) = true := by
    unfold is_running at h
    cases hp : st.procs mid with
    | none => rfl
    | some p =>
      rw [hp] at h
      simp only [bne_eq_false_iff_eq] at h
      simp [h]
  have heq : stop_miner env st mid =
      (st, [Effect.logGlobal (minerName st mid ++ ": Stop requested but not running.")]) := by
    unfold stop_miner
    rw [hb]
    simp
  exact ⟨heq, by rw [heq], by rw [heq], by rw [heq], by rw [heq]⟩

/-- Witness for C8 at a concrete state: a record holding an exited
handle. -/
def c8State : GuiState where
  settings := ⟨⟨false, true⟩, [⟨"xmrig", "XMRig", "EXE", "", "", "", ["xmrig.exe"], true, "", []⟩], ⟨true, "", "", "", "", ""⟩⟩
  minerTabs := ["xmrig"]
  procs := fun k => if k = "xmrig" then some ⟨.notRunning⟩ else none
  proc_pids := fun _ => none
  proc_paused := fun _ => false
  proc_last_error := fun k => if k = "xmrig" then some "XMRig: exited with code 1" else none
  last_hashrate := fun _ => none

/-- A neutral oracle environment for witnesses. -/
def wEnv : Env where
  win32 := true
  resumeOk := fun _ => true
  killNameCount := fun _ => 0
  chooseBat := fun _ => none
  pathExists := fun _ => true
  comspec := some "C:\\Windows\\System32\\cmd.exe"
  windir := some "C:\\Windows"
  resolveDir := fun s => s
  ctx := ⟨"C:\\app", "2026-10-12", "12:00:00", "2026-10-12_12-00-00"⟩
  osEnv := fun _ => none
  waitForStartedOk := fun _ => true
  newPid := fun _ => some 4242
  errorString := ""

theorem stop_idempotent_not_running_witness :
    (stop_miner wEnv c8State "xmrig").2
      = [Effect.logGlobal "XMRig: Stop requested but not running."] ∧
    (stop_miner wEnv c8State "xmrig").1.procs "xmrig" = some ⟨.notRunning⟩ ∧
    (stop_miner wEnv c8State "xmrig").1.proc_last_error "xmrig"
      = some "XMRig: exited with code 1" := by
  have h := stop_idempotent_not_running wEnv c8State "xmrig" (by decide)
  refine ⟨?_, ?_, ?_⟩
  · rw [h.1]
    decide
  · rw [h.2.1]
    decide
  · rw [h.2.2.2.2]
    decide

/-- C9: the output-stream decoder is total (a Lean function of this type
cannot raise): the empty byte string yields the empty string; whenever
strict UTF-8 decoding succeeds its result is returned; when it fails the
decoder falls back to the platform legacy code page on Windows (and, if
that also fails, or off Windows, to the lossy replacing decode), so a
text result is produced for every input. -/
theorem decode_utf8_first_total (win32 : Bool)
    (mbcs : List UInt8 → Option String) (b : List UInt8) :
    (b = [] → decode_process_bytes win32 mbcs b = "") ∧
    (∀ s, utf8Decode b = some s → decode_process_bytes win32 mbcs b = s) ∧
    (utf8Decode b = none →
      decode_process_bytes win32 mbcs b =
        (if win32 then
          (match mbcs b with
           | some t => t
           | none => utf8DecodeReplace b)
         else utf8DecodeReplace b)) := by
  refine ⟨?_, ?_, ?_⟩
  · intro h
    subst h
    rfl
  · intro s hs
    cases b with
    | nil =>
      have h0 : utf8Decode ([] : List UInt8) = some "" := by decide
      rw [h0] at hs
      cases hs
      rfl
    | cons x xs =>
      simp [decode_process_bytes, hs]
  · intro h
    cases b with
    | nil =>
      have h0 : utf8Decode ([] : List UInt8) = some "" := by decide
      rw [h0] at h
      cases h
    | cons x xs =>
      simp [decode_process_bytes, h]

theorem decode_utf8_first_total_witness :
    decode_process_bytes false (fun _ => none) ([] : List UInt8) = "" ∧
    decode_process_bytes false (fun _ => none) [79, 75] = "OK" ∧
    decode_process_bytes true (fun _ => some "legacy") [255, 65] = "legacy" ∧
    decode_process_bytes false (fun _ => none) [255, 65] = "�A" := by
  refine ⟨?_, ?_, ?_, ?_⟩
  · exact (decode_utf8_first_total false (fun _ => none) []).1 rfl
  · exact (decode_utf8_first_total false (fun _ => none) [79, 75]).2.1 "OK" (by decide)
  · have h := (decode_utf8_first_total true (fun _ => some "legacy") [255, 65]).2.2 (by decide)
    rw [h]
    decide
  · have h := (decode_utf8_first_total false (fun _ => none) [255, 65]).2.2 (by decide)
    rw [h]
    decide

/-- The loop of `kill_by_name` counts exactly the processes whose
reported name matches case-insensitively and whose kill succeeds. -/
theorem killByNameLoop_count (exeL : String) (procs : List OsProc) :
    ∀ i, (killByNameLoop exeL i procs).1 =
      (procs.filter (fun p =>
        (pyLower (p.name.getD "") == exeL) && p.killOk)).length := by
  induction procs with
  | nil => intro i; rfl
  | cons p rest ih =>
    intro i
    by_cases h1 : pyLower (p.name.getD "") = exeL
    · have h1b : (pyLower (p.name.getD "") == exeL) = true := by simpa using h1
      by_cases h2 : p.killOk = true
      · simp [killByNameLoop, List.filter, h1, h1b, h2, ih (i + 1)]
      · simp [killByNameLoop, List.filter, h1, h1b, h2, ih (i + 1)]
    · have h1b : (pyLower (p.name.getD "") == exeL) = false := by simpa using h1
      simp [killByNameLoop, List.filter, h1, h1b, ih (i + 1)]

/-- C6: `kill_by_name` validates against the strict filename pattern
(one or more characters of `[A-Za-z0-9_.-]` followed by `.exe`,
case-insensitively): any name failing validation is acted on zero
processes with return 0 (in particular `"../evil.exe"` fails, while
`"xmrig.exe"` is a valid shape); any accepted name returns exactly the
number of matching processes successfully terminated. -/
theorem kill_by_name_validates (procs : List OsProc) (name : String) :
    (safeExeMatch (pyStrip name) = false → kill_by_name procs name = (0, [])) ∧
    (safeExeMatch (pyStrip name) = true →
      (kill_by_name procs name).1 =
        (procs.filter (fun p =>
          (pyLower (p.name.getD "") == pyLower (pyStrip name)) && p.killOk)).length) ∧
    safeExeMatch (pyStrip "xmrig.exe") = true ∧
    safeExeMatch (pyStrip "../evil.exe") = false := by
  refine ⟨?_, ?_, by decide, by decide⟩
  · intro h
    unfold kill_by_name
    simp [h]
  · intro h
    unfold kill_by_name
    simp only [h, Bool.not_true, Bool.false_eq_true, if_false]
    exact killByNameLoop_count (pyLower (pyStrip name)) procs 0

theorem kill_by_name_validates_witness :
    kill_by_name [⟨some "evil.exe", true⟩] "../evil.exe" = (0, []) ∧
    (kill_by_name [⟨some "XMRIG.exe", true⟩, ⟨some "other.exe", true⟩,
      ⟨none, true⟩, ⟨some "xmrig.exe", false⟩] "xmrig.exe").1 = 1 := by
  constructor
  · exact (kill_by_name_validates [⟨some "evil.exe", true⟩] "../evil.exe").1 (by decide)
  · have h := (kill_by_name_validates [⟨some "XMRIG.exe", true⟩, ⟨some "other.exe", true⟩,
      ⟨none, true⟩, ⟨some "xmrig.exe", false⟩] "xmrig.exe").2.1 (by decide)
    rw [h]
    decide

/-- C3: on the canonical triple-value speed line
`"speed 10s/60s/15m 1234.5 5678.9 n/a H/s"` NEITHER hashrate pattern
matches — after the first value the pattern requires the unit, but the
line continues with the 60s value — so `_maybe_capture_hashrate` leaves
the stored sample unchanged (here: still absent) instead of setting it
to `"1234.5 H/s"`.  A line whose first value is directly followed by the
unit (e.g. `"speed 1234.5 H/s"`) is captured, via the speed pattern. -/
theorem speed_line_not_captured :
    maybe_capture_hashrate (fun _ => none) "xmrig"
      "speed 10s/60s/15m 1234.5 5678.9 n/a H/s" "xmrig" = none ∧
    xmrigSpeedSearch "speed 10s/60s/15m 1234.5 5678.9 n/a H/s" = none ∧
    xmrigHashrateSearch "speed 10s/60s/15m 1234.5 5678.9 n/a H/s" = none ∧
    maybe_capture_hashrate (fun _ => none) "xmrig"
      "speed 1234.5 H/s" "xmrig" = some "1234.5 H/s" := by
  refine ⟨by decide, by decide, by decide, by decide⟩

/-- A replacement whose pattern does not occur is the identity. -/
theorem replaceFuel_not_occurs (pat rep : List Char) :
    ∀ (fuel : Nat) (s : List Char), hasSub pat s = false →
      replaceFuel pat rep fuel s = s := by
  intro fuel
  induction fuel with
  | zero => intro s _; rfl
  | succ n ih =>
    intro s hs
    cases s with
    | nil => rfl
    | cons c rest =>
      unfold hasSub at hs
      simp only [Bool.or_eq_false_iff] at hs
      unfold replaceFuel
      rw [hs.1]
      simp [ih rest hs.2]

/-- `str.replace` with a non-occurring pattern is the identity. -/
theorem pyReplace_not_occurs (s pat rep : String)
    (h : hasSub pat.data s.data = false) : pyReplace s pat rep = s := by
  unfold pyReplace
  rw [replaceFuel_not_occurs pat.data rep.data s.data.length s.data h]

/-- `expandvars` on a string with no `$` and no `%` is the identity
(the early return of `ntpath.expandvars`). -/
theorem expandvars_no_refs (env : String → Option String) (s : String)
    (h1 : s.data.contains '$' = false) (h2 : s.data.contains '%' = false) :
    expandvars env s = s := by
  unfold expandvars
  rw [h1, h2]
  rfl

/-- C4: resolving the template `"--config {XMRIG_CONFIG_NAME}"` against
a generated-config path named `config.generated.json` tokenizes to
exactly `["--config", "config.generated.json"]`; a template made of
unrecognized tokens is left verbatim; and a double-quoted path
containing spaces tokenizes as a single argument. -/
theorem resolve_template_roundtrip (ctx : PlaceholderCtx)
    (env : String → Option String) (p : String)
    (h : pathName p = "config.generated.json") :
    split_args (expand_placeholders ctx env "--config {XMRIG_CONFIG_NAME}" (some p))
      = some ["--config", "config.generated.json"] ∧
    expand_placeholders ctx env "--nonsense {NOT_A_TOKEN} -x" (some p)
      = "--nonsense {NOT_A_TOKEN} -x" ∧
    split_args "\"C:\\Program Files\\xmrig.exe\" --donate 1"
      = some ["\"C:\\Program Files\\xmrig.exe\"", "--donate", "1"] := by
  refine ⟨?_, ?_, by decide⟩
  · unfold expand_placeholders
    simp only [List.foldl]
    rw [pyReplace_not_occurs "--config {XMRIG_CONFIG_NAME}" "{APP_DIR}" ctx.appDir (by decide)]
    rw [pyReplace_not_occurs "--config {XMRIG_CONFIG_NAME}" "{DATE}" ctx.date (by decide)]
    rw [pyReplace_not_occurs "--config {XMRIG_CONFIG_NAME}" "{TIME}" ctx.time (by decide)]
    rw [pyReplace_not_occurs "--config {XMRIG_CONFIG_NAME}" "{DATETIME}" ctx.datetime (by decide)]
    rw [pyReplace_not_occurs "--config {XMRIG_CONFIG_NAME}" "{XMRIG_CONFIG}" p (by decide)]
    rw [h]
    rw [show pyReplace "--config {XMRIG_CONFIG_NAME}" "{XMRIG_CONFIG_NAME}"
          "config.generated.json" = "--config config.generated.json" from by decide]
    rw [expandvars_no_refs env "--config config.generated.json" (by decide) (by decide)]
    decide
  · unfold expand_placeholders
    simp only [List.foldl]
    rw [pyReplace_not_occurs "--nonsense {NOT_A_TOKEN} -x" "{APP_DIR}" ctx.appDir (by decide)]
    rw [pyReplace_not_occurs "--nonsense {NOT_A_TOKEN} -x" "{DATE}" ctx.date (by decide)]
    rw [pyReplace_not_occurs "--nonsense {NOT_A_TOKEN} -x" "{TIME}" ctx.time (by decide)]
    rw [pyReplace_not_occurs "--nonsense {NOT_A_TOKEN} -x" "{DATETIME}" ctx.datetime (by decide)]
    rw [pyReplace_not_occurs "--nonsense {NOT_A_TOKEN} -x" "{XMRIG_CONFIG}" p (by decide)]
    rw [pyReplace_not_occurs "--nonsense {NOT_A_TOKEN} -x" "{XMRIG_CONFIG_NAME}"
      (pathName p) (by decide)]
    exact expandvars_no_refs env "--nonsense {NOT_A_TOKEN} -x" (by decide) (by decide)

theorem resolve_template_roundtrip_witness :
    split_args (expand_placeholders ⟨"C:\\app", "2026-10-12", "12:00:00", "t"⟩
        (fun _ => none) "--config {XMRIG_CONFIG_NAME}"
        (some "C:\\miners\\xmrig\\config.generated.json"))
      = some ["--config", "config.generated.json"] :=
  (resolve_template_roundtrip ⟨"C:\\app", "2026-10-12", "12:00:00", "t"⟩
    (fun _ => none) "C:\\miners\\xmrig\\config.generated.json" (by decide)).1

/-- C7: with auto-config enabled, the generated-config writer reports a
validation failure (writing nothing) when the stripped pool or wallet is
empty; otherwise it writes a document with exactly one pool entry whose
user field is the wallet alone when the worker is empty and
`wallet ++ "." ++ worker` when not, and whose password falls back to the
fixed placeholder `"x"` when the configured password is blank. -/
theorem write_config_requires_fields (xm : XmSettings) (exe : String)
    (hauto : xm.auto_config = true) :
    ((pyStrip xm.pool = "" ∨ pyStrip xm.wallet = "") →
      write_xmrig_config xm exe = .missingFields) ∧
    (pyStrip xm.pool ≠ "" → pyStrip xm.wallet ≠ "" →
      write_xmrig_config xm exe =
        .written (xmrig_generated_config_path exe)
          ⟨true, true, false, false,
           [⟨pyStrip xm.pool,
             xmrigUserField (pyStrip xm.wallet) (pyStrip xm.worker),
             xmrigPasswordField xm.passwd, true, false⟩]⟩) ∧
    (pyStrip xm.worker = "" →
      xmrigUserField (pyStrip xm.wallet) (pyStrip xm.worker) = pyStrip xm.wallet) ∧
    (pyStrip xm.worker ≠ "" →
      xmrigUserField (pyStrip xm.wallet) (pyStrip xm.worker)
        = pyStrip xm.wallet ++ "." ++ pyStrip xm.worker) ∧
    (pyStrip xm.passwd = "" → xmrigPasswordField xm.passwd = "x") := by
  refine ⟨?_, ?_, ?_, ?_, ?_⟩
  · intro h
    unfold write_xmrig_config
    rw [hauto]
    rcases h with h | h <;> simp [h]
  · intro h1 h2
    unfold write_xmrig_config
    rw [hauto]
    simp [h1, h2]
  · intro h
    unfold xmrigUserField
    rw [h]
    simp
  · intro h
    unfold xmrigUserField
    simp [h]
  · intro h
    unfold xmrigPasswordField
    by_cases hp : xm.passwd = ""
    · rw [hp]
      decide
    · rw [if_neg hp, h]
      simp

theorem write_config_requires_fields_witness :
    write_xmrig_config ⟨true, "pool.example:3333", "WALLET1", "rig1", "", ""⟩
        "C:\\miners\\xmrig.exe"
      = .written "C:\\miners\\config.generated.json"
          ⟨true, true, false, false,
           [⟨"pool.example:3333", "WALLET1.rig1", "x", true, false⟩]⟩ ∧
    write_xmrig_config ⟨true, "", "WALLET1", "rig1", "", ""⟩ "C:\\miners\\xmrig.exe"
      = .missingFields := by
  constructor
  · have h := (write_config_requires_fields
      ⟨true, "pool.example:3333", "WALLET1", "rig1", "", ""⟩
      "C:\\miners\\xmrig.exe" rfl).2.1 (by decide) (by decide)
    rw [h]
    decide
  · exact (write_config_requires_fields
      ⟨true, "", "WALLET1", "rig1", "", ""⟩
      "C:\\miners\\xmrig.exe" rfl).1 (Or.inl (by decide))

/-- `find?` returns the element at the first index whose test is true. -/
theorem find_first_true {α : Type} (p : α → Bool) :
    ∀ (l : List α) (k : Nat) (hk : k < l.length),
      p (l.get ⟨k, hk⟩) = true →
      (∀ (j : Nat) (hj : j < l.length), j < k → p (l.get ⟨j, hj⟩) = false) →
      l.find? p = some (l.get ⟨k, hk⟩)
  | [], k, hk => by simp at hk
  | a :: l, 0, _ => fun hp _ => by
      simp only [List.get] at hp
      simp [List.find?, hp]
  | a :: l, k + 1, hk => fun hp hj => by
      have ha : p a = false := hj 0 (by simp) (by omega)
      have ih := find_first_true p l k (by
        simp only [List.length_cons] at hk
        omega) hp (fun j hjl hjk => hj (j + 1) (by simp; omega) (by omega))
      simp [List.find?, ha, ih]

/-- C5: for every output line with no embedded escape directive,
keyword classification applies only to the designated miner
(`"xmrig"`, case-insensitively): any other miner id gets the default
(uncolored) span; for the designated miner a line matching no rule gets
the default span, and a line whose first matching rule (in the declared
priority order) is rule `k` is rendered in rule `k`'s color. -/
theorem keyword_classification (line mid : String)
    (hnoesc : strHasSub line "\x1b[" = false) :
    (pyLower mid ≠ "xmrig" →
      line_to_html_with_rules line mid = defaultSpan (pyHtmlEscape line)) ∧
    (pyLower mid = "xmrig" →
      ((∀ r ∈ XMRIG_RULES, ruleSearch r.1 line = false) →
        line_to_html_with_rules line mid = defaultSpan (pyHtmlEscape line)) ∧
      (∀ (k : Nat) (hk : k < XMRIG_RULES.length),
        ruleSearch (XMRIG_RULES.get ⟨k, hk⟩).1 line = true →
        (∀ (j : Nat) (hj : j < XMRIG_RULES.length), j < k →
          ruleSearch (XMRIG_RULES.get ⟨j, hj⟩).1 line = false) →
        line_to_html_with_rules line mid
          = coloredSpan (XMRIG_RULES.get ⟨k, hk⟩).2 (pyHtmlEscape line))) := by
  constructor
  · intro hmid
    unfold line_to_html_with_rules
    simp [hnoesc, hmid]
  · intro hmid
    constructor
    · intro hall
      have hnone : XMRIG_RULES.find? (fun r => ruleSearch r.1 line) = none := by
        rw [List.find?_eq_none]
        intro r hr
        simp [hall r hr]
      unfold line_to_html_with_rules
      simp [hnoesc, hmid, hnone]
    · intro k hk hpk hprev
      have hfind := find_first_true (fun r => ruleSearch r.1 line) XMRIG_RULES k hk hpk
        (fun j hj hjk => hprev j hj hjk)
      unfold line_to_html_with_rules
      simp [hnoesc, hmid, hfind]

theorem keyword_classification_witness :
    line_to_html_with_rules "share rejected" "XMRig"
      = coloredSpan "#ff4444" "share rejected" ∧
    line_to_html_with_rules "share rejected" "wildrig"
      = defaultSpan "share rejected" ∧
    line_to_html_with_rules "plain output" "xmrig"
      = defaultSpan "plain output" := by
  refine ⟨?_, ?_, ?_⟩
  · have h := ((keyword_classification "share rejected" "XMRig" (by decide)).2
      (by decide)).2 2 (by decide) (by decide)
      (by
        intro j hj hjk
        interval_cases j
        · show ruleSearch ["accepted"] "share rejected" = false
          decide
        · show ruleSearch ["new job"] "share rejected" = false
          decide)
    rw [h]
    decide
  · have h := (keyword_classification "share rejected" "wildrig" (by decide)).1 (by decide)
    rw [h]
    decide
  · have h := ((keyword_classification "plain output" "xmrig" (by decide)).2
      (by decide)).1 (by
        intro r hr
        fin_cases hr <;> decide)
    rw [h]
    decide

/-- `kill_miner` always finishes with the record cleared: handle gone,
pid gone, pause flag false. -/
theorem kill_miner_clears (env : Env) (st : GuiState) (mid : String) :
    (kill_miner env st mid).1.procs mid = none ∧
    (kill_miner env st mid).1.proc_pids mid = none ∧
    (kill_miner env st mid).1.proc_paused mid = false := by
  unfold kill_miner
  simp [updFun]

/-- C2: a Stop on a running identity arms the 5-second escalation
timer; when the timer fires with the process still tracked as running,
the callback performs exactly one Kill invocation (the log line followed
by precisely `kill_miner`'s actions) and leaves the record cleared to
Idle; when the process is no longer tracked as running the callback is a
strict no-op. -/
theorem stop_escalation (env : Env) (st stFire : GuiState) (mid : String) :
    (is_running st mid = true →
      Effect.armKillTimer mid 5000 ∈ (stop_miner env st mid).2) ∧
    (is_running stFire mid = true →
      escalate_kill_if_running env stFire mid =
        ((kill_miner env stFire mid).1,
         Effect.logGlobal (minerName stFire mid
           ++ ": Did not stop gracefully; escalating to kill.")
           :: (kill_miner env stFire mid).2) ∧
      (escalate_kill_if_running env stFire mid).1.procs mid = none ∧
      (escalate_kill_if_running env stFire mid).1.proc_pids mid = none ∧
      (escalate_kill_if_running env stFire mid).1.proc_paused mid = false) ∧
    (is_running stFire mid = false →
      escalate_kill_if_running env stFire mid = (stFire, [])) := by
  refine ⟨?_, ?_, ?_⟩
  · intro hrun
    have hb : (match st.procs mid with
        | none => true
        | some p => p.state == QProcState.notRunning) = false := by
      unfold is_running at hrun
      cases hp : st.procs mid with
      | none => rw [hp] at hrun; cases hrun
      | some p =>
        rw [hp] at hrun
        simpa using hrun
    unfold stop_miner
    rw [hb]
    simp
  · intro hrun
    have heq : escalate_kill_if_running env stFire mid =
        ((kill_miner env stFire mid).1,
         Effect.logGlobal (minerName stFire mid
           ++ ": Did not stop gracefully; escalating to kill.")
           :: (kill_miner env stFire mid).2) := by
      unfold escalate_kill_if_running
      rw [hrun]
      simp
    have hc := kill_miner_clears env stFire mid
    refine ⟨heq, ?_, ?_, ?_⟩
    · rw [heq]; exact hc.1
    · rw [heq]; exact hc.2.1
    · rw [heq]; exact hc.2.2
  · intro hrun
    unfold escalate_kill_if_running
    rw [hrun]
    simp

/-- Witness state for C2/C10: XMRig running with a tracked pid, WildRig
idle. -/
def runState : GuiState where
  settings := ⟨⟨false, true⟩,
    [⟨"xmrig", "XMRig", "EXE", "C:\\m\\xmrig.exe", "", "", ["xmrig.exe"], true, "", []⟩,
     ⟨"wildrig", "WildRig", "BAT", "", "", "", ["wildrig.exe"], true, "", []⟩],
    ⟨true, "pool.example:3333", "WALLET1", "rig1", "", ""⟩⟩
  minerTabs := ["xmrig", "wildrig"]
  procs := fun k => if k = "xmrig" then some ⟨.running⟩ else none
  proc_pids := fun k => if k = "xmrig" then some 4242 else none
  proc_paused := fun _ => false
  proc_last_error := fun _ => none
  last_hashrate := fun _ => none

theorem stop_escalation_witness :
    Effect.armKillTimer "xmrig" 5000 ∈ (stop_miner wEnv runState "xmrig").2 ∧
    (escalate_kill_if_running wEnv runState "xmrig").1.procs "xmrig" = none ∧
    (escalate_kill_if_running wEnv runState "xmrig").1.proc_pids "xmrig" = none ∧
    (escalate_kill_if_running wEnv runState "xmrig").1.proc_paused "xmrig" = false ∧
    escalate_kill_if_running wEnv c8State "xmrig" = (c8State, []) := by
  have h := stop_escalation wEnv runState runState "xmrig"
  have h2 := (h.2.1 (by decide))
  have h3 := (stop_escalation wEnv c8State c8State "xmrig").2.2 (by decide)
  exact ⟨h.1 (by decide), h2.2.1, h2.2.2.1, h2.2.2.2, h3⟩

/-- C10: Kill is accepted for an identity with no tracked process
(handle absent, pid absent, pause flag clear): it skips the
process-handle kill and the tree kill but still performs the
kill-by-name sweep over every configured kill alias, in order, and
finishes with the record cleared — handle absent, pid absent, pause
flag false. -/
theorem kill_idle_sweeps_aliases (env : Env) (st : GuiState) (mid : String)
    (m : MinerDef) (hproc : st.procs mid = none) (hpid : st.proc_pids mid = none)
    (hpause : st.proc_paused mid = false) (hfind : findMiner st mid = some m) :
    (kill_miner env st mid).2 =
      m.kill_names.map (fun k => Effect.killByName (pyStrip k))
        ++ (if (m.kill_names.map (fun k => env.killNameCount (pyStrip k))).sum != 0 then
              [Effect.logGlobal (m.name ++ ": kill-by-name fallback killed "
                ++ toString (m.kill_names.map (fun k => env.killNameCount (pyStrip k))).sum
                ++ " process(es).")]
            else [])
        ++ [Effect.updateButtons] ∧
    (kill_miner env st mid).1.procs mid = none ∧
    (kill_miner env st mid).1.proc_pids mid = none ∧
    (kill_miner env st mid).1.proc_paused mid = false := by
  refine ⟨?_, kill_miner_clears env st mid⟩
  unfold kill_miner
  simp [is_paused, hpause, hproc, hpid, hfind, minerName]

theorem kill_idle_sweeps_aliases_witness :
    (kill_miner wEnv runState "wildrig").2
      = [Effect.killByName "wildrig.exe", Effect.updateButtons] ∧
    (kill_miner wEnv runState "wildrig").1.procs "wildrig" = none ∧
    (kill_miner wEnv runState "wildrig").1.proc_pids "wildrig" = none ∧
    (kill_miner wEnv runState "wildrig").1.proc_paused "wildrig" = false := by
  have h := kill_idle_sweeps_aliases wEnv runState "wildrig"
    ⟨"wildrig", "WildRig", "BAT", "", "", "", ["wildrig.exe"], true, "", []⟩
    (by decide) (by decide) (by decide) (by decide)
  refine ⟨?_, h.2.1, h.2.2.1, h.2.2.2⟩
  rw [h.1]
  decide

/-- `resume_miner` touches no record of another identity. -/
theorem resume_foreign (env : Env) (st : GuiState) (t : String) (s : Bool)
    (mid : String) (hne : mid ≠ t) :
    (resume_miner env st t s).1.procs mid = st.procs mid ∧
    (resume_miner env st t s).1.proc_pids mid = st.proc_pids mid ∧
    (resume_miner env st t s).1.proc_paused mid = st.proc_paused mid ∧
    (resume_miner env st t s).1.proc_last_error mid = st.proc_last_error mid := by
  unfold resume_miner
  split
  · simp
  · split
    · simp [updFun, hne]
    · split
      · simp
      · split
        · simp [updFun, hne]
        · simp [updFun, hne]
        · split
          · simp [updFun, hne]
          · simp

/-- `stop_miner`'s result, split on the not-running test and the pause
flag. -/
theorem stop_miner_cases (env : Env) (st : GuiState) (t : String) :
    stop_miner env st t =
      (if (match st.procs t with
           | none => true
           | some p => p.state == QProcState.notRunning) = true then
        (st, [Effect.logGlobal (minerName st t ++ ": Stop requested but not running.")])
      else
        ((if is_paused st t then resume_miner env st t true else (st, [])).1,
         (if is_paused st t then resume_miner env st t true else (st, [])).2 ++
           [Effect.logGlobal (minerName st t ++ ": Stop requested (graceful terminate)."),
            Effect.terminate t, Effect.armKillTimer t 5000, Effect.updateButtons])) := by
  unfold stop_miner
  rfl

/-- `stop_miner` touches no record of another identity. -/
theorem stop_foreign (env : Env) (st : GuiState) (t mid : String)
    (hne : mid ≠ t) :
    (stop_miner env st t).1.procs mid = st.procs mid ∧
    (stop_miner env st t).1.proc_pids mid = st.proc_pids mid ∧
    (stop_miner env st t).1.proc_paused mid = st.proc_paused mid ∧
    (stop_miner env st t).1.proc_last_error mid = st.proc_last_error mid := by
  rw [stop_miner_cases]
  by_cases hnr : (match st.procs t with
      | none => true
      | some p => p.state == QProcState.notRunning) = true
  · rw [if_pos hnr]
    exact ⟨rfl, rfl, rfl, rfl⟩
  · rw [if_neg hnr]
    by_cases hp : is_paused st t = true
    · simp only [hp, if_true]
      exact resume_foreign env st t true mid hne
    · rw [if_neg hp]
      exact ⟨rfl, rfl, rfl, rfl⟩

/-- `resume_miner` never launches a process. -/
theorem resume_launchFree (env : Env) (st : GuiState) (t : String) (s : Bool) :
    launchFree (resume_miner env st t s).2 = true := by
  unfold resume_miner
  split
  · cases s <;> simp [launchFree, isLaunch]
  · split
    · simp [launchFree, isLaunch]
    · split
      · simp [launchFree, isLaunch]
      · split
        · simp [launchFree, isLaunch]
        · simp [launchFree, isLaunch]
        · split <;> cases s <;> simp [launchFree, isLaunch]

theorem launchFree_append (a b : List Effect) :
    launchFree (a ++ b) = (launchFree a && launchFree b) := by
  simp [launchFree, List.all_append]

/-- `stop_miner` never launches a process. -/
theorem stop_launchFree (env : Env) (st : GuiState) (t : String) :
    launchFree (stop_miner env st t).2 = true := by
  rw [stop_miner_cases]
  by_cases hnr : (match st.procs t with
      | none => true
      | some p => p.state == QProcState.notRunning) = true
  · rw [if_pos hnr]
    simp [launchFree, isLaunch]
  · rw [if_neg hnr]
    by_cases hp : is_paused st t = true
    · simp only [hp, if_true]
      rw [launchFree_append, resume_launchFree env st t true]
      simp [launchFree, isLaunch]
    · rw [if_neg hp]
      simp [launchFree, isLaunch]

/-- The single-active loop preserves the target identity's record and
launches nothing. -/
theorem stopOthers_foreign (env : Env) (mid : String) :
    ∀ (tabs : List String) (init : GuiState × List Effect),
      ((tabs.foldl
          (fun acc t =>
            if t != mid && is_running acc.1 t then
              let r := stop_miner env acc.1 t
              (r.1, acc.2 ++ r.2)
            else acc) init).1.procs mid = init.1.procs mid ∧
       (tabs.foldl
          (fun acc t =>
            if t != mid && is_running acc.1 t then
              let r := stop_miner env acc.1 t
              (r.1, acc.2 ++ r.2)
            else acc) init).1.proc_pids mid = init.1.proc_pids mid ∧
       (tabs.foldl
          (fun acc t =>
            if t != mid && is_running acc.1 t then
              let r := stop_miner env acc.1 t
              (r.1, acc.2 ++ r.2)
            else acc) init).1.proc_paused mid = init.1.proc_paused mid ∧
       (tabs.foldl
          (fun acc t =>
            if t != mid && is_running acc.1 t then
              let r := stop_miner env acc.1 t
              (r.1, acc.2 ++ r.2)
            else acc) init).1.proc_last_error mid = init.1.proc_last_error mid) ∧
      (launchFree init.2 = true →
        launchFree (tabs.foldl
          (fun acc t =>
            if t != mid && is_running acc.1 t then
              let r := stop_miner env acc.1 t
              (r.1, acc.2 ++ r.2)
            else acc) init).2 = true) := by
  intro tabs
  induction tabs with
  | nil => intro init; exact ⟨⟨rfl, rfl, rfl, rfl⟩, fun h => h⟩
  | cons t rest ih =>
    intro init
    simp only [List.foldl]
    by_cases hc : (t != mid && is_running init.1 t) = true
    · rw [if_pos hc]
      have hne : mid ≠ t := by
        simp only [Bool.and_eq_true] at hc
        have h1 := hc.1
        intro he
        rw [he] at h1
        simp at h1
      have hstop := stop_foreign env init.1 t mid hne
      have hlf := stop_launchFree env init.1 t
      have ihr := ih ((stop_miner env init.1 t).1, init.2 ++ (stop_miner env init.1 t).2)
      refine ⟨⟨?_, ?_, ?_, ?_⟩, ?_⟩
      · rw [ihr.1.1]; exact hstop.1
      · rw [ihr.1.2.1]; exact hstop.2.1
      · rw [ihr.1.2.2.1]; exact hstop.2.2.1
      · rw [ihr.1.2.2.2]; exact hstop.2.2.2
      · intro h
        apply ihr.2
        rw [launchFree_append, h, hlf]
        rfl
    · rw [if_neg hc]
      exact ih init

/-- C1 (amended): Start on a definition whose stripped entry path is
empty — with the target not currently running — returns the
NotConfigured outcome (the blocking "Missing path" warning), launches no
process, and leaves the target's record (handle, pid, pause flag,
lastError) unchanged; when the global exclusivity flag is off the whole
state is unchanged.  (When the flag is on, other running identities are
sent Stop before the path check — see the counterexample.) -/
theorem start_empty_path_not_configured (env : Env) (st : GuiState)
    (mid : String) (m : MinerDef) (hfind : findMiner st mid = some m)
    (hrun : is_running st mid = false) (hpath : pyStrip m.path = "") :
    (start_miner env st mid).2.2 = .notConfigured ∧
    launchFree (start_miner env st mid).2.1 = true ∧
    Effect.msgWarning "Missing path" ("Set Path for " ++ m.name ++ " in Settings.")
      ∈ (start_miner env st mid).2.1 ∧
    (start_miner env st mid).1.procs mid = st.procs mid ∧
    (start_miner env st mid).1.proc_pids mid = st.proc_pids mid ∧
    (start_miner env st mid).1.proc_paused mid = st.proc_paused mid ∧
    (start_miner env st mid).1.proc_last_error mid = st.proc_last_error mid ∧
    (st.settings.ui.single_active = false → (start_miner env st mid).1 = st) := by
  have hkey : start_miner env st mid =
      ((if st.settings.ui.single_active then stopOthers env st mid else (st, [])).1,
       (if st.settings.ui.single_active then stopOthers env st mid else (st, [])).2
         ++ [Effect.msgWarning "Missing path"
              ("Set Path for " ++ m.name ++ " in Settings.")],
       StartOutcome.notConfigured) := by
    unfold start_miner
    rw [hfind]
    simp only [hrun, Bool.false_eq_true, if_false, hpath, if_true]
  have hp1 : (if st.settings.ui.single_active = true then stopOthers env st mid
      else (st, [])).1.procs mid = st.procs mid := by
    by_cases hsa : st.settings.ui.single_active = true
    · rw [if_pos hsa]
      exact (stopOthers_foreign env mid st.minerTabs (st, [])).1.1
    · rw [if_neg hsa]
  have hp2 : (if st.settings.ui.single_active = true then stopOthers env st mid
      else (st, [])).1.proc_pids mid = st.proc_pids mid := by
    by_cases hsa : st.settings.ui.single_active = true
    · rw [if_pos hsa]
      exact (stopOthers_foreign env mid st.minerTabs (st, [])).1.2.1
    · rw [if_neg hsa]
  have hp3 : (if st.settings.ui.single_active = true then stopOthers env st mid
      else (st, [])).1.proc_paused mid = st.proc_paused mid := by
    by_cases hsa : st.settings.ui.single_active = true
    · rw [if_pos hsa]
      exact (stopOthers_foreign env mid st.minerTabs (st, [])).1.2.2.1
    · rw [if_neg hsa]
  have hp4 : (if st.settings.ui.single_active = true then stopOthers env st mid
      else (st, [])).1.proc_last_error mid = st.proc_last_error mid := by
    by_cases hsa : st.settings.ui.single_active = true
    · rw [if_pos hsa]
      exact (stopOthers_foreign env mid st.minerTabs (st, [])).1.2.2.2
    · rw [if_neg hsa]
  have hlaunch : launchFree (if st.settings.ui.single_active = true
      then stopOthers env st mid else (st, [])).2 = true := by
    by_cases hsa : st.settings.ui.single_active = true
    · rw [if_pos hsa]
      exact (stopOthers_foreign env mid st.minerTabs (st, [])).2 rfl
    · rw [if_neg hsa]
      rfl
  rw [hkey]
  dsimp only
  refine ⟨rfl, ?_, by simp, hp1, hp2, hp3, hp4, ?_⟩
  · rw [launchFree_append, hlaunch]
    simp [launchFree, isLaunch]
  · intro h
    simp [h]

/-- Counterexample state for C1 as frozen: exclusivity on, miner `a`
with an empty path, miner `b` running and paused. -/
def c1State : GuiState where
  settings := ⟨⟨true, true⟩,
    [⟨"a", "A", "EXE", "", "", "", [], true, "", []⟩,
     ⟨"b", "B", "EXE", "C:\\b\\b.exe", "", "", [], true, "", []⟩],
    ⟨false, "", "", "", "", ""⟩⟩
  minerTabs := ["a", "b"]
  procs := fun k => if k = "b" then some ⟨.running⟩ else none
  proc_pids := fun k => if k = "b" then some 99 else none
  proc_paused := fun k => k == "b"
  proc_last_error := fun _ => none
  last_hashrate := fun _ => none

/-- C1 counterexample: with the exclusivity flag set, Start on the
empty-path miner `a` aborts with NotConfigured but has already sent Stop
to the running paused miner `b`, clearing `b`'s pause flag and
requesting its termination — a state change to another miner's record,
contradicting the claim's "causes no state change — including to every
other miner's record". -/
theorem start_empty_path_cex :
    c1State.proc_paused "b" = true ∧
    (start_miner wEnv c1State "a").2.2 = .notConfigured ∧
    (start_miner wEnv c1State "a").1.proc_paused "b" = false ∧
    Effect.terminate "b" ∈ (start_miner wEnv c1State "a").2.1 := by
  refine ⟨by decide, by decide, by decide, by decide⟩

theorem start_empty_path_not_configured_witness :
    (start_miner wEnv c8State "xmrig").2.2 = .notConfigured ∧
    launchFree (start_miner wEnv c8State "xmrig").2.1 = true ∧
    (start_miner wEnv c8State "xmrig").1.procs "xmrig" = some ⟨.notRunning⟩ := by
  have h := start_empty_path_not_configured wEnv c8State "xmrig"
    ⟨"xmrig", "XMRig", "EXE", "", "", "", ["xmrig.exe"], true, "", []⟩
    (by decide) (by decide) (by decide)
  exact ⟨h.1, h.2.1, by rw [h.2.2.2.1]; decide⟩

end MinerGui
